import Mathlib

/-!
Verification of the Gen-AI-tool repository: an Express relay service
(`server.js`, endpoint `POST /submit-code`) and a React chat client
(`App.js`, handler `handleRunTest`), shallowly embedded in Lean.

The embedding is organised as follows.

* `Json` models an arbitrary JavaScript/JSON value (the opaque bodies
  exchanged with the external prediction API).
* The relay handler `submitCodeHandler` models the body of
  `app.post('/submit-code', ...)`.  Its one effectful section — creating
  the `google.genai` client and awaiting
  `genai.projects.locations.models.predict(...)` — is abstracted as a
  function `api : PredictCall → Except E ApiResponse`: `.ok r` models the
  awaited call resolving with SDK response object `r` (whose `.data`
  field is the API response body), `.error e` models any step of the
  `try` block throwing the value `e`.  The error type `E` is a parameter,
  since JavaScript can throw values of any type.
* The client handler `handleRunTest` is modelled as a function from the
  component state and the settlement outcome of the single
  `axios.post` call to the new state together with a trace of observable
  events (`ClientEvent`).  The trace records program order: the `await`
  sits at the `.post` event, so events strictly before the first `.post`
  happen synchronously before the network call is issued, and events
  after it happen only once the call has settled.
* `detectInfiniteLoop` is translated directly, with `jsIncludes`
  modelling `String.prototype.includes`.
-/

/-- An arbitrary JSON/JavaScript value, used for the opaque bodies that the
relay and the external prediction API exchange. -/
inductive Json where
  | null
  | bool (b : Bool)
  | num (n : Int)
  | str (s : String)
  | arr (elems : List Json)
  | obj (fields : List (String × Json))

/-! ## Relay service (`server.js`) -/

/-- The parsed JSON body of a `POST /submit-code` request.  The handler
destructures `const { code } = req.body`; a missing `code` field yields
JavaScript `undefined`, modelled as `none`. -/
structure ReqBody where
  code : Option String

/-- The argument object passed to
`genai.projects.locations.models.predict({name, requestBody})`:
the model resource path and the `requestBody.input.prompt` field
(which carries the submitted code, or `undefined` when it was missing). -/
structure PredictCall where
  name : String
  prompt : Option String

/-- The fixed (placeholder) model resource path
`projects/${projectId}/locations/${location}/models/${modelName}`
with `projectId = 'your-project-id'`, `location = 'your-location'`,
`modelName = 'your-model-name'`. -/
def resourcePath : String :=
  "projects/your-project-id/locations/your-location/models/your-model-name"

/-- Construction of the predict-call argument from the extracted `code`
value, as in the handler: the fixed resource path plus
`requestBody = {input: {prompt: code}}`. -/
def mkPredictCall (code : Option String) : PredictCall :=
  { name := resourcePath, prompt := code }

/-- The SDK response object returned by a resolving `predict` call; the
handler forwards its `data` field (the raw API response body). -/
structure ApiResponse where
  data : Json

/-- The JSON body of the relay's HTTP response:
`res.json({message, data})` on success, `res.status(500).json({error})`
on failure. -/
inductive RelayBody where
  | success (message : String) (data : Json)
  | failure (error : String)

/-- The handler of `app.post('/submit-code', ...)`, returning the HTTP
status code and response body.  `api` abstracts the effectful `try`
block (client creation plus the awaited `predict` call): on `.ok r` the
handler responds 200 with `{message: 'Code processed by Google Gen AI',
data: r.data}`; on `.error e` (any thrown value, of any type `E`) the
`catch` responds 500 with the fixed error body. -/
def submitCodeHandler {E : Type} (body : ReqBody)
    (api : PredictCall → Except E ApiResponse) : Nat × RelayBody :=
  match api (mkPredictCall body.code) with
  | .ok response =>
      (200, RelayBody.success "Code processed by Google Gen AI" response.data)
  | .error _ =>
      (500, RelayBody.failure "Failed to process code using Google Gen AI API")

/-- The same handler, written in a program from which the (dead)
`detectInfiniteLoop` utility has been removed.  The source handler never
references `detectInfiniteLoop`, so its translation is unchanged. -/
def submitCodeHandlerNoDetector {E : Type} (body : ReqBody)
    (api : PredictCall → Except E ApiResponse) : Nat × RelayBody :=
  match api (mkPredictCall body.code) with
  | .ok response =>
      (200, RelayBody.success "Code processed by Google Gen AI" response.data)
  | .error _ =>
      (500, RelayBody.failure "Failed to process code using Google Gen AI API")

/-! ## The unused loop detector (`server.js`) -/

/-- `sub.isPrefixOf l` as a plain boolean on character lists: does `l`
start with `sub`? -/
def startsWithCL : List Char → List Char → Bool
  | [], _ => true
  | _ :: _, [] => false
  | a :: sub, b :: rest => a == b && startsWithCL sub rest

/-- Does `sub` occur as a contiguous run somewhere in `l`? -/
def occursIn (sub : List Char) : List Char → Bool
  | [] => startsWithCL sub []
  | b :: rest => startsWithCL sub (b :: rest) || occursIn sub rest

/-- `s.includes(sub)` of JavaScript: substring containment. -/
def jsIncludes (s sub : String) : Bool :=
  occursIn sub.data s.data

/-- Translation of `detectInfiniteLoop(code)`:
`code.includes("while") && !code.includes("i++")`. -/
def detectInfiniteLoop (code : String) : Bool :=
  jsIncludes code "while" && !jsIncludes code "i++"

/-! ## Chat client (`App.js`) -/

/-- The `sender` tag of a chat message. -/
inductive Sender where
  | user
  | bot
deriving DecidableEq, Repr

/-- A chat message `{sender, text}` from the `messages` state array. -/
structure ChatMessage where
  sender : Sender
  text : String
deriving DecidableEq, Repr

/-- The updater passed to the first `setMessages`:
`prev => [...prev, {sender: 'user', text: code}]`. -/
def appendUserUpdate (code : String) (prev : List ChatMessage) : List ChatMessage :=
  prev ++ [{ sender := Sender.user, text := code }]

/-- The updater passed to `setMessages` in the `try` branch:
`prev => [...prev, {sender: 'bot', text: response.data.message}]`. -/
def appendBotSuccessUpdate (message : String) (prev : List ChatMessage) : List ChatMessage :=
  prev ++ [{ sender := Sender.bot, text := message }]

/-- The fixed fallback text appended in the `catch` branch. -/
def errorFallbackText : String :=
  "An error occurred while processing your code."

/-- The updater passed to `setMessages` in the `catch` branch:
`prev => [...prev, {sender: 'bot', text: "An error occurred while processing your code."}]`. -/
def appendBotErrorUpdate (prev : List ChatMessage) : List ChatMessage :=
  prev ++ [{ sender := Sender.bot, text := errorFallbackText }]

/-- The set of characters `String.prototype.trim` removes (JavaScript
WhiteSpace and LineTerminator code points). -/
def isJsWhitespace (c : Char) : Bool :=
  c == ' ' || c == '\t' || c == '\n' || c == '\r' || c == '\x0b' || c == '\x0c' ||
  c == '\u00A0' || c == '\u1680' || ('\u2000' ≤ c && c ≤ '\u200A') ||
  c == '\u2028' || c == '\u2029' || c == '\u202F' || c == '\u205F' ||
  c == '\u3000' || c == '\uFEFF'

/-- `s.trim()` of JavaScript: strip leading and trailing whitespace. -/
def jsTrim (s : String) : String :=
  ⟨((s.data.dropWhile isJsWhitespace).reverse.dropWhile isJsWhitespace).reverse⟩

/-- The relay's success body as the client consumes it:
`response.data.message` and `response.data.data`. -/
structure PredictionResult where
  message : String
  data : Json

/-- Why an `axios.post` promise was rejected.  The client's `catch` does
not inspect it; the variants record that network errors, timeouts,
non-2xx statuses and arbitrary thrown values are all possible causes. -/
inductive NetFailure where
  | networkError
  | timeout
  | httpStatus (status : Nat)
  | thrown (message : String)
deriving DecidableEq, Repr

/-- The settlement outcome of the single `axios.post` call: resolution
with the relay's (2xx) response body, or rejection. -/
inductive NetResult where
  | ok (body : PredictionResult)
  | err (f : NetFailure)

/-- The component state read and written by `handleRunTest`: the `code`
input field and the `messages` array. -/
structure ClientState where
  code : String
  messages : List ChatMessage

/-- The observable events of one `handleRunTest` run, in program order:
message appends (`setMessages`), the issuing of the `axios.post` request
with its `{code}` payload, and the clearing of the input (`setCode('')`).
The `await` sits at the `.post` event: events before the first `.post`
happen synchronously before the network call is issued; events after it
happen only once the call has settled. -/
inductive ClientEvent where
  | msgAppend (m : ChatMessage)
  | post (code : String)
  | inputClear
deriving DecidableEq, Repr

/-- Translation of `handleRunTest`, given the settlement outcome `net` of
the one `axios.post` call: the guard `if (!code.trim()) return`, the
user-message append, the awaited post, the bot-message append in the
`try` or `catch` branch, and finally `setCode('')`.  Returns the new
state and the event trace. -/
def handleRunTest (st : ClientState) (net : NetResult) : ClientState × List ClientEvent :=
  if jsTrim st.code = "" then (st, [])
  else
    let afterUser : ClientState :=
      { st with messages := appendUserUpdate st.code st.messages }
    match net with
    | NetResult.ok body =>
        let afterBot : ClientState :=
          { afterUser with messages := appendBotSuccessUpdate body.message afterUser.messages }
        ({ afterBot with code := "" },
         [ClientEvent.msgAppend { sender := Sender.user, text := st.code },
          ClientEvent.post st.code,
          ClientEvent.msgAppend { sender := Sender.bot, text := body.message },
          ClientEvent.inputClear])
    | NetResult.err _ =>
        let afterBot : ClientState :=
          { afterUser with messages := appendBotErrorUpdate afterUser.messages }
        ({ afterBot with code := "" },
         [ClientEvent.msgAppend { sender := Sender.user, text := st.code },
          ClientEvent.post st.code,
          ClientEvent.msgAppend { sender := Sender.bot, text := errorFallbackText },
          ClientEvent.inputClear])

/-! ## Trace observations -/

/-- The messages appended over a trace, in order. -/
def appendedMessages : List ClientEvent → List ChatMessage
  | [] => []
  | ClientEvent.msgAppend m :: rest => m :: appendedMessages rest
  | _ :: rest => appendedMessages rest

/-- The payloads of the network requests issued over a trace, in order. -/
def issuedPosts : List ClientEvent → List String
  | [] => []
  | ClientEvent.post c :: rest => c :: issuedPosts rest
  | _ :: rest => issuedPosts rest

/-- Is this event the issuing of the network request? -/
def isPost : ClientEvent → Bool
  | ClientEvent.post _ => true
  | _ => false

/-- The events that happen synchronously, before the network call is
issued (hence before it resolves): the part of the trace strictly before
the first `.post` event. -/
def beforeCall (tr : List ClientEvent) : List ClientEvent :=
  tr.takeWhile (fun e => !isPost e)

/-- The events that happen only once the network call has settled: the
part of the trace strictly after the first `.post` event. -/
def afterSettle (tr : List ClientEvent) : List ClientEvent :=
  (tr.dropWhile (fun e => !isPost e)).drop 1

/-- The bot text the client shows for a given settlement outcome: the
response body's `message` field on success, the fixed fallback on any
failure. -/
def expectedBotText : NetResult → String
  | NetResult.ok body => body.message
  | NetResult.err _ => errorFallbackText

/-! ## Shared lemmas -/

/-- A string `jsTrim`s to the empty string exactly when every character
of it is whitespace (in particular when it is empty). -/
theorem jsTrim_eq_empty_iff (s : String) :
    jsTrim s = "" ↔ ∀ c ∈ s.data, isJsWhitespace c = true := by
  have hdata : jsTrim s = "" ↔
      ((s.data.dropWhile isJsWhitespace).reverse.dropWhile isJsWhitespace).reverse = [] := by
    constructor
    · intro h
      have := congrArg String.data h
      simpa [jsTrim] using this
    · intro h
      show String.mk _ = String.mk []
      exact congrArg String.mk h
  rw [hdata, List.reverse_eq_nil_iff, List.dropWhile_eq_nil_iff]
  constructor
  · intro h c hc
    have hsplit := List.takeWhile_append_dropWhile isJsWhitespace s.data
    rw [← hsplit] at hc
    rcases List.mem_append.mp hc with h1 | h2
    · exact List.mem_takeWhile_imp h1
    · exact h c (List.mem_reverse.mpr h2)
  · intro h c hc
    have hc' : c ∈ s.data.dropWhile isJsWhitespace := List.mem_reverse.mp hc
    have hsplit := List.takeWhile_append_dropWhile isJsWhitespace s.data
    have : c ∈ s.data := by
      rw [← hsplit]
      exact List.mem_append.mpr (Or.inr hc')
    exact h c this

/-! ## Claims about the relay service -/

/-- C1: for a request body `{code: X}`, if the external prediction call
resolves with a response whose body is `B`, the relay responds 200 with
`{message: "Code processed by Google Gen AI", data: B}`, the body passed
through verbatim. -/
theorem submitCode_success (E : Type) (X : String) (B : Json)
    (api : PredictCall → Except E ApiResponse)
    (h : api (mkPredictCall (some X)) = Except.ok ⟨B⟩) :
    submitCodeHandler ⟨some X⟩ api =
      (200, RelayBody.success "Code processed by Google Gen AI" B) := by
  simp [submitCodeHandler, h]

/-- Witness for `submitCode_success` at `X = "x"`, `B = Json.null`. -/
theorem submitCode_success_witness :
    ((fun _ => Except.ok ⟨Json.null⟩ : PredictCall → Except Unit ApiResponse)
        (mkPredictCall (some "x")) = Except.ok ⟨Json.null⟩) ∧
    submitCodeHandler ⟨some "x"⟩ (fun _ => Except.ok ⟨Json.null⟩ : PredictCall → Except Unit ApiResponse) =
      (200, RelayBody.success "Code processed by Google Gen AI" Json.null) :=
  ⟨rfl, submitCode_success Unit "x" Json.null _ rfl⟩

/-- C2: if any step of the handler throws — any value `e`, of any type
`E` — the relay responds 500 with the fixed body
`{error: "Failed to process code using Google Gen AI API"}`,
independent of `e`; and no other failure shape is ever produced: every
response is either that fixed 500 body or a 200 success body. -/
theorem submitCode_failure (E : Type) (body : ReqBody) (e : E)
    (api : PredictCall → Except E ApiResponse)
    (h : api (mkPredictCall body.code) = Except.error e) :
    submitCodeHandler body api =
      (500, RelayBody.failure "Failed to process code using Google Gen AI API") ∧
    ∀ (E' : Type) (body' : ReqBody) (api' : PredictCall → Except E' ApiResponse),
      submitCodeHandler body' api' =
        (500, RelayBody.failure "Failed to process code using Google Gen AI API") ∨
      ∃ d : Json, submitCodeHandler body' api' =
        (200, RelayBody.success "Code processed by Google Gen AI" d) := by
  constructor
  · simp [submitCodeHandler, h]
  · intro E' body' api'
    cases hcall : api' (mkPredictCall body'.code) with
    | ok r => exact Or.inr ⟨r.data, by simp [submitCodeHandler, hcall]⟩
    | error e' => exact Or.inl (by simp [submitCodeHandler, hcall])

/-- Witness for `submitCode_failure` with a thrown string. -/
theorem submitCode_failure_witness :
    ((fun _ => Except.error "boom" : PredictCall → Except String ApiResponse)
        (mkPredictCall (ReqBody.mk (some "x")).code) = Except.error "boom") ∧
    (submitCodeHandler ⟨some "x"⟩
        (fun _ => Except.error "boom" : PredictCall → Except String ApiResponse) =
      (500, RelayBody.failure "Failed to process code using Google Gen AI API") ∧
    ∀ (E' : Type) (body' : ReqBody) (api' : PredictCall → Except E' ApiResponse),
      submitCodeHandler body' api' =
        (500, RelayBody.failure "Failed to process code using Google Gen AI API") ∨
      ∃ d : Json, submitCodeHandler body' api' =
        (200, RelayBody.success "Code processed by Google Gen AI" d)) :=
  ⟨rfl, submitCode_failure String ⟨some "x"⟩ "boom" _ rfl⟩

/-- C7: a body lacking the `code` field is not rejected: the extracted
value (`undefined`, i.e. `none`) is passed downstream as the `prompt`
field of the predict call, and the handler treats the request exactly as
it would a present string — whenever the external call's outcome is the
same, the response is the same. -/
theorem submitCode_missing_code (E : Type) (s : String)
    (api api' : PredictCall → Except E ApiResponse)
    (h : api (mkPredictCall none) = api' (mkPredictCall (some s))) :
    (mkPredictCall none).prompt = none ∧
    (mkPredictCall none).name = resourcePath ∧
    submitCodeHandler ⟨none⟩ api = submitCodeHandler ⟨some s⟩ api' := by
  refine ⟨rfl, rfl, ?_⟩
  simp [submitCodeHandler, h]

/-- Witness for `submitCode_missing_code` at `s = "x"`. -/
theorem submitCode_missing_code_witness :
    ((fun _ => Except.ok ⟨Json.null⟩ : PredictCall → Except Unit ApiResponse)
        (mkPredictCall none) =
      (fun _ => Except.ok ⟨Json.null⟩ : PredictCall → Except Unit ApiResponse)
        (mkPredictCall (some "x"))) ∧
    ((mkPredictCall none).prompt = none ∧
     (mkPredictCall none).name = resourcePath ∧
     submitCodeHandler ⟨none⟩
         (fun _ => Except.ok ⟨Json.null⟩ : PredictCall → Except Unit ApiResponse) =
       submitCodeHandler ⟨some "x"⟩
         (fun _ => Except.ok ⟨Json.null⟩ : PredictCall → Except Unit ApiResponse)) :=
  ⟨rfl, submitCode_missing_code Unit "x" _ _ rfl⟩

/-- C8: `detectInfiniteLoop` is never invoked on the request path: for
every request body and every behaviour of the external call, the handler
responds exactly as the handler of the program with `detectInfiniteLoop`
removed. -/
theorem submitCode_detector_unused (E : Type) (body : ReqBody)
    (api : PredictCall → Except E ApiResponse) :
    submitCodeHandler body api = submitCodeHandlerNoDetector body api :=
  rfl

/-- Computation of one non-blank `handleRunTest` run: the event trace and
the final state, uniformly in the settlement outcome. -/
theorem handleRunTest_run (st : ClientState) (net : NetResult)
    (h : jsTrim st.code ≠ "") :
    (handleRunTest st net).2 =
      [ClientEvent.msgAppend { sender := Sender.user, text := st.code },
       ClientEvent.post st.code,
       ClientEvent.msgAppend { sender := Sender.bot, text := expectedBotText net },
       ClientEvent.inputClear] ∧
    (handleRunTest st net).1 =
      { code := "",
        messages := st.messages ++
          [{ sender := Sender.user, text := st.code },
           { sender := Sender.bot, text := expectedBotText net }] } := by
  cases net with
  | ok body =>
      simp [handleRunTest, h, appendUserUpdate, appendBotSuccessUpdate, expectedBotText]
  | err f =>
      simp [handleRunTest, h, appendUserUpdate, appendBotErrorUpdate, expectedBotText]

/-! ## Claims about the chat client -/

/-- C4: for blank input (empty or all-whitespace), `handleRunTest` is a
no-op: the state is unchanged and the trace is empty (no message
appended, no network call issued). -/
theorem handleRunTest_blank_noop (st : ClientState) (net : NetResult)
    (h : ∀ c ∈ st.code.data, isJsWhitespace c = true) :
    handleRunTest st net = (st, []) := by
  have hb : jsTrim st.code = "" := (jsTrim_eq_empty_iff st.code).mpr h
  simp [handleRunTest, hb]

/-- Witness for `handleRunTest_blank_noop` on the whitespace-only input
`" \t"`. -/
theorem handleRunTest_blank_noop_witness :
    (∀ c ∈ (" \t" : String).data, isJsWhitespace c = true) ∧
    handleRunTest ⟨" \t", []⟩ (NetResult.err NetFailure.networkError) = (⟨" \t", []⟩, []) :=
  ⟨by decide, handleRunTest_blank_noop ⟨" \t", []⟩ (NetResult.err NetFailure.networkError)
    (by decide)⟩

/-- C5: for non-blank input, exactly one user message — `{sender: user,
text: st.code}` — is appended, synchronously before the network call is
issued (hence before it resolves), it is the only user message of the
run, and it lands at the end of the prior sequence. -/
theorem handleRunTest_user_append (st : ClientState) (net : NetResult)
    (h : jsTrim st.code ≠ "") :
    appendedMessages (beforeCall (handleRunTest st net).2) =
      [{ sender := Sender.user, text := st.code }] ∧
    (appendedMessages (handleRunTest st net).2).filter
        (fun m => decide (m.sender = Sender.user)) =
      [{ sender := Sender.user, text := st.code }] ∧
    ∃ rest, (handleRunTest st net).1.messages =
      st.messages ++ { sender := Sender.user, text := st.code } :: rest := by
  obtain ⟨htr, hst⟩ := handleRunTest_run st net h
  refine ⟨?_, ?_, ?_⟩
  · rw [htr]; simp [beforeCall, isPost, appendedMessages]
  · rw [htr]; simp [appendedMessages]
  · exact ⟨[{ sender := Sender.bot, text := expectedBotText net }], by rw [hst]⟩

/-- Witness for `handleRunTest_user_append` at input `"x"`. -/
theorem handleRunTest_user_append_witness :
    jsTrim "x" ≠ "" ∧
    (appendedMessages (beforeCall (handleRunTest ⟨"x", []⟩
        (NetResult.ok ⟨"hi", Json.null⟩)).2) =
      [{ sender := Sender.user, text := "x" }] ∧
    (appendedMessages (handleRunTest ⟨"x", []⟩ (NetResult.ok ⟨"hi", Json.null⟩)).2).filter
        (fun m => decide (m.sender = Sender.user)) =
      [{ sender := Sender.user, text := "x" }] ∧
    ∃ rest, (handleRunTest ⟨"x", []⟩ (NetResult.ok ⟨"hi", Json.null⟩)).1.messages =
      ([] : List ChatMessage) ++ { sender := Sender.user, text := "x" } :: rest) :=
  ⟨by decide, handleRunTest_user_append ⟨"x", []⟩ (NetResult.ok ⟨"hi", Json.null⟩) (by decide)⟩

/-- C3: for non-blank input, exactly one bot message is appended over the
whole run — never zero, never more than one — its text is the response
body's `message` field on success and the fixed fallback on any failure,
and it is appended only after the network call has settled (none before
the call is issued). -/
theorem handleRunTest_bot_append (st : ClientState) (net : NetResult)
    (h : jsTrim st.code ≠ "") :
    (appendedMessages (handleRunTest st net).2).filter
        (fun m => decide (m.sender = Sender.bot)) =
      [{ sender := Sender.bot, text := expectedBotText net }] ∧
    (appendedMessages (beforeCall (handleRunTest st net).2)).filter
        (fun m => decide (m.sender = Sender.bot)) = [] ∧
    (appendedMessages (afterSettle (handleRunTest st net).2)).filter
        (fun m => decide (m.sender = Sender.bot)) =
      [{ sender := Sender.bot, text := expectedBotText net }] := by
  obtain ⟨htr, _⟩ := handleRunTest_run st net h
  rw [htr]
  refine ⟨by simp [appendedMessages], ?_, ?_⟩
  · simp [beforeCall, isPost, appendedMessages]
  · simp [afterSettle, isPost, appendedMessages]

/-- Witness for `handleRunTest_bot_append` on a rejected call. -/
theorem handleRunTest_bot_append_witness :
    jsTrim "x" ≠ "" ∧
    ((appendedMessages (handleRunTest ⟨"x", []⟩ (NetResult.err NetFailure.timeout)).2).filter
        (fun m => decide (m.sender = Sender.bot)) =
      [{ sender := Sender.bot,
         text := expectedBotText (NetResult.err NetFailure.timeout) }] ∧
    (appendedMessages (beforeCall (handleRunTest ⟨"x", []⟩
        (NetResult.err NetFailure.timeout)).2)).filter
        (fun m => decide (m.sender = Sender.bot)) = [] ∧
    (appendedMessages (afterSettle (handleRunTest ⟨"x", []⟩
        (NetResult.err NetFailure.timeout)).2)).filter
        (fun m => decide (m.sender = Sender.bot)) =
      [{ sender := Sender.bot,
         text := expectedBotText (NetResult.err NetFailure.timeout) }]) :=
  ⟨by decide, handleRunTest_bot_append ⟨"x", []⟩ (NetResult.err NetFailure.timeout) (by decide)⟩

/-- C6 fails as stated: at input `"x"`, a network request is issued, but
the input-clear event is not among the events that precede the request —
`setCode('')` runs only after the awaited call settles. -/
theorem handleRunTest_clear_order_counterexample :
    issuedPosts (handleRunTest ⟨"x", []⟩ (NetResult.err NetFailure.networkError)).2 = ["x"] ∧
    ClientEvent.inputClear ∉
      beforeCall (handleRunTest ⟨"x", []⟩ (NetResult.err NetFailure.networkError)).2 := by
  decide

/-- C6 (amended): for non-blank input, exactly one network call carrying
`{code: st.code}` is issued (no retry); the input field is not cleared
before the call is issued but only after it settles, and the final state
has an empty input field. -/
theorem handleRunTest_single_post_clear_after (st : ClientState) (net : NetResult)
    (h : jsTrim st.code ≠ "") :
    issuedPosts (handleRunTest st net).2 = [st.code] ∧
    ClientEvent.inputClear ∉ beforeCall (handleRunTest st net).2 ∧
    ClientEvent.inputClear ∈ afterSettle (handleRunTest st net).2 ∧
    (handleRunTest st net).1.code = "" := by
  obtain ⟨htr, hst⟩ := handleRunTest_run st net h
  refine ⟨?_, ?_, ?_, ?_⟩
  · rw [htr]; simp [issuedPosts]
  · rw [htr]; simp [beforeCall, isPost]
  · rw [htr]; simp [afterSettle, isPost]
  · rw [hst]

/-- Witness for `handleRunTest_single_post_clear_after` at input `"x"`. -/
theorem handleRunTest_single_post_clear_after_witness :
    jsTrim "x" ≠ "" ∧
    (issuedPosts (handleRunTest ⟨"x", []⟩ (NetResult.ok ⟨"hi", Json.null⟩)).2 = ["x"] ∧
    ClientEvent.inputClear ∉
      beforeCall (handleRunTest ⟨"x", []⟩ (NetResult.ok ⟨"hi", Json.null⟩)).2 ∧
    ClientEvent.inputClear ∈
      afterSettle (handleRunTest ⟨"x", []⟩ (NetResult.ok ⟨"hi", Json.null⟩)).2 ∧
    (handleRunTest ⟨"x", []⟩ (NetResult.ok ⟨"hi", Json.null⟩)).1.code = "") :=
  ⟨by decide, handleRunTest_single_post_clear_after ⟨"x", []⟩
    (NetResult.ok ⟨"hi", Json.null⟩) (by decide)⟩

/-- C9: every message-sequence update of the client — the user append,
the success bot append, the failure bot append, and any whole
`handleRunTest` run — extends the previous sequence, of which it keeps a
verbatim copy as a prefix: nothing is modified, removed or reordered. -/
theorem messages_append_only (prev : List ChatMessage) (code msg : String)
    (st : ClientState) (net : NetResult) :
    (∃ t, appendUserUpdate code prev = prev ++ t) ∧
    (∃ t, appendBotSuccessUpdate msg prev = prev ++ t) ∧
    (∃ t, appendBotErrorUpdate prev = prev ++ t) ∧
    (∃ t, (handleRunTest st net).1.messages = st.messages ++ t) := by
  refine ⟨⟨_, rfl⟩, ⟨_, rfl⟩, ⟨_, rfl⟩, ?_⟩
  by_cases h : jsTrim st.code = ""
  · exact ⟨[], by simp [handleRunTest, h]⟩
  · obtain ⟨_, hst⟩ := handleRunTest_run st net h
    exact ⟨_, by rw [hst]⟩

/-! ## Claims about the loop detector -/

/-- `startsWithCL sub l` decides whether `sub` is an initial run of `l`. -/
theorem startsWithCL_iff (sub : List Char) :
    ∀ l, startsWithCL sub l = true ↔ ∃ post, l = sub ++ post := by
  induction sub with
  | nil =>
      intro l
      simp [startsWithCL]
  | cons a sub ih =>
      intro l
      cases l with
      | nil =>
          simp [startsWithCL]
      | cons b rest =>
          simp only [startsWithCL, Bool.and_eq_true, beq_iff_eq, ih, List.cons_append]
          constructor
          · rintro ⟨hab, post, hpost⟩
            exact ⟨post, by rw [hab, hpost]⟩
          · rintro ⟨post, hpost⟩
            obtain ⟨h1, h2⟩ := List.cons.injEq b rest a (sub ++ post) ▸ hpost
            exact ⟨h1.symm, post, h2⟩

/-- `occursIn sub l` decides whether `sub` occurs contiguously in `l`. -/
theorem occursIn_iff (sub : List Char) :
    ∀ l, occursIn sub l = true ↔ ∃ pre post, l = pre ++ sub ++ post := by
  intro l
  induction l with
  | nil =>
      simp only [occursIn, startsWithCL_iff]
      constructor
      · rintro ⟨post, hpost⟩
        exact ⟨[], post, by simpa using hpost⟩
      · rintro ⟨pre, post, hpost⟩
        have h1 : pre ++ sub = [] ∧ post = [] := by
          simpa using List.append_eq_nil.mp hpost.symm
        have h2 : sub = [] := (List.append_eq_nil.mp h1.1).2
        exact ⟨[], by simp [h2]⟩
  | cons b rest ih =>
      simp only [occursIn, Bool.or_eq_true, startsWithCL_iff, ih]
      constructor
      · rintro (⟨post, hpost⟩ | ⟨pre, post, hpost⟩)
        · exact ⟨[], post, by simpa using hpost⟩
        · exact ⟨b :: pre, post, by simp [hpost]⟩
      · rintro ⟨pre, post, hpost⟩
        cases pre with
        | nil =>
            exact Or.inl ⟨post, by simpa using hpost⟩
        | cons p pre =>
            have h1 : b = p ∧ rest = pre ++ sub ++ post := by
              simpa using hpost
            exact Or.inr ⟨pre, post, h1.2⟩

/-- `jsIncludes` agrees with string-level substring containment. -/
theorem jsIncludes_iff (s sub : String) :
    jsIncludes s sub = true ↔ ∃ u v : String, s = u ++ sub ++ v := by
  rw [jsIncludes, occursIn_iff]
  constructor
  · rintro ⟨pre, post, hpost⟩
    refine ⟨⟨pre⟩, ⟨post⟩, ?_⟩
    have : (⟨pre⟩ ++ sub ++ ⟨post⟩ : String).data = pre ++ sub.data ++ post := by
      simp [String.data_append]
    cases s with
    | mk d => exact congrArg String.mk (by simpa using hpost)
  · rintro ⟨u, v, huv⟩
    refine ⟨u.data, v.data, ?_⟩
    have := congrArg String.data huv
    simpa [String.data_append] using this

/-- C10: `detectInfiniteLoop` is a total function on strings, and for
every string `c` it returns `true` exactly when `c` contains the
substring `"while"` and does not contain the substring `"i++"`. -/
theorem detectInfiniteLoop_spec (c : String) :
    detectInfiniteLoop c = true ↔
      ((∃ u v : String, c = u ++ "while" ++ v) ∧
       ¬ ∃ u v : String, c = u ++ "i++" ++ v) := by
  rw [detectInfiniteLoop, Bool.and_eq_true, Bool.not_eq_true', ← Bool.not_eq_true,
    jsIncludes_iff, jsIncludes_iff]
